import Mathlib

/-!
Verification development for the `GrammarBuddyHelper` class
(`src/GrammarBuddyHelper.py`): a BNF grammar container with a recursive
random sentence generator.

The Python class is shallowly embedded as follows.

* The instance attribute `langMap` (a Python `dict` from symbol string to
  list of alternative-expression strings, in insertion order) becomes an
  insertion-ordered association list `Grammar := List (String × List String)`;
  `dict.update` with a singleton dict becomes `updateAssoc` (replace the
  value in place when the key is present, append otherwise — exactly
  Python's ordered-dict semantics).
* Python `str.split(sep)` for a nonempty separator becomes `pySplitL`
  (fuelled character-list scan; fuel `s.length` is always enough, see
  `pySplitAux_fuel`), Python's substring test `sep in s` becomes
  `hasOccur`, and Python `str.strip()` becomes `pyStrip`.
* `random.randint(0, len(rule)-1)` in `generate` is modelled by an
  arbitrary oracle stream `oracle : Nat → Nat` together with a position
  counter; the value actually used is `oracle pos % rule.length`, so every
  run of the Python program corresponds to some oracle and every oracle
  corresponds to a possible run.  `random.randint(0, -1)` (an empty
  alternative list) raises `ValueError` in Python, modelled by
  `GenErr.valueError`.  The Python recursion is unguarded, so the
  embedding adds fuel; exhaustion is the artificial `GenErr.fuelOut`.
* File I/O is out of scope: `saveMap` is modelled by `saveLines`, the list
  of lines it writes (each followed by a newline in the file), and the
  constructor's `print` of a malformed-rule diagnostic is modelled by the
  `Option String` component of `initGrammarAux`.
-/

namespace GBH

/-- Characters removed by Python `str.strip()`. -/
def isPyWs (c : Char) : Bool :=
  c = ' ' || c = '\t' || c = '\n' || c = '\r' || c = '\x0b' || c = '\x0c'

/-- Python `str.strip()`: drop leading and trailing whitespace. -/
def pyStrip (s : String) : String :=
  String.mk (((s.data.dropWhile isPyWs).reverse.dropWhile isPyWs).reverse)

/-- Python substring test `sep in s`, on character lists. -/
def hasOccur (sep : List Char) : List Char → Bool
  | [] => sep.isEmpty
  | c :: rest => sep.isPrefixOf (c :: rest) || hasOccur sep rest

/-- Python `s.split(sep)` for a nonempty `sep`, as a fuelled left-to-right
scan over the character list (`sep` is never empty at any call site in the
source; Python raises `ValueError` on an empty separator).  Fuel
`s.length` always suffices because each step consumes at least one
character of `s`. -/
def pySplitAux (sep : List Char) : Nat → List Char → List Char → List (List Char)
  | 0, s, acc => [acc.reverse ++ s]
  | fuel + 1, s, acc =>
    match s with
    | [] => [acc.reverse]
    | c :: rest =>
      if sep.isPrefixOf (c :: rest) then
        acc.reverse :: pySplitAux sep fuel (List.drop sep.length (c :: rest)) []
      else
        pySplitAux sep fuel rest (c :: acc)

/-- Python `s.split(sep)` on character lists. -/
def pySplitL (sep s : List Char) : List (List Char) :=
  pySplitAux sep s.length s []

/-- Python `s.split(sep)` on strings. -/
def pySplitS (sep s : String) : List String :=
  (pySplitL sep.data s.data).map String.mk

/-- Python `sep in s` on strings. -/
def hasOccurS (sep s : String) : Bool := hasOccur sep.data s.data

/-- The `langMap` attribute: a Python dict from symbol to its ordered list
of alternative expressions, kept in insertion order. -/
abbrev Grammar := List (String × List String)

/-- Python dict lookup (`langMap[k]`, and `k in langMap` via `isSome`). -/
def lookup (g : Grammar) (k : String) : Option (List String) :=
  (g.find? (fun p => p.1 == k)).map Prod.snd

/-- Python `langMap.update({k: v})`: replace the value in place when `k`
is already a key (keeping its position), append the new entry otherwise. -/
def updateAssoc (g : Grammar) (k : String) (v : List String) : Grammar :=
  if g.any (fun p => p.1 == k) then
    g.map (fun p => if p.1 == k then (k, v) else p)
  else
    g ++ [(k, v)]

/-- The rule loop of `GrammarBuddyHelper.__init__` (lines 66-73): process
the rule lines in order; a line not containing `symDelim` prints
`"Malformed rule: " + line` and returns, abandoning the remaining lines.
Returns the populated map and the diagnostic message, if any.  For a valid
line the code runs `line = i.split(symDelim)` and stores
`{line[0]: line[1].split(exprDelim)}`. -/
def initGrammarAux (sd ed : String) : List String → Grammar → Grammar × Option String
  | [], m => (m, none)
  | line :: rest, m =>
    if hasOccurS sd line then
      initGrammarAux sd ed rest
        (updateAssoc m ((pySplitS sd line).getD 0 "")
          (pySplitS ed ((pySplitS sd line).getD 1 "")))
    else
      (m, some ("Malformed rule: " ++ line))

/-- The grammar produced by `GrammarBuddyHelper(rules, sd, ed)`. -/
def initGrammar (sd ed : String) (rules : List String) : Grammar :=
  (initGrammarAux sd ed rules []).1

/-- Failure modes of the embedded `generate`. -/
inductive GenErr where
  /-- Models the Python `ValueError` raised by `random.randint(0, -1)`
  when the chosen symbol's alternative list is empty. -/
  | valueError
  /-- Artificial: the recursion fuel ran out.  The source recursion is
  unguarded, so this marks runs the fuelled embedding cannot finish. -/
  | fuelOut
deriving DecidableEq

/-- The token loop of `GrammarBuddyHelper.generate` (lines 98-102): for
each token of the chosen expression, a token that is currently a key is
expanded by a recursive call (here the parameter `gen`), stripped, and
appended with a trailing space; any other token is appended verbatim with
a trailing space.  The position counter threads the oracle stream. -/
def genTokens (g : Grammar) (gen : Nat → String → Except GenErr (String × Nat)) :
    List String → Nat → String → Except GenErr (String × Nat)
  | [], pos, acc => Except.ok (acc, pos)
  | t :: ts, pos, acc =>
    match lookup g t with
    | some _ =>
      match gen pos t with
      | Except.error e => Except.error e
      | Except.ok (s, pos2) => genTokens g gen ts pos2 (acc ++ pyStrip s ++ " ")
    | none => genTokens g gen ts pos (acc ++ t ++ " ")

/-- `GrammarBuddyHelper.generate` (lines 75-103).  An unknown symbol
returns the diagnostic string as an ordinary value; otherwise one
alternative is chosen by `rule[random.randint(0, len(rule)-1)]`
(modelled as `rule.getD (oracle pos % rule.length) ""`, which raises
`ValueError` when the list is empty), split on single spaces, and the
token loop runs.  `fuel` bounds the recursion depth of the embedding. -/
def generate (g : Grammar) (oracle : Nat → Nat) : Nat → Nat → String → Except GenErr (String × Nat)
  | 0 => fun _ _ => Except.error GenErr.fuelOut
  | fuel + 1 => fun pos symbol =>
    match lookup g symbol with
    | none => Except.ok ("Symbol not found in grammar: " ++ symbol, pos)
    | some rule =>
      if rule.isEmpty then Except.error GenErr.valueError
      else
        genTokens g (generate g oracle fuel)
          (pySplitS " " (rule.getD (oracle pos % rule.length) ""))
          (pos + 1) ""

/-- `GrammarBuddyHelper.contains` (lines 105-126): the key test, then the
loop over the value lists testing Python list membership `term in i`. -/
def contains (g : Grammar) (term : String) : Bool :=
  if g.any (fun p => p.1 == term) then true
  else g.any (fun p => p.2.contains term)

/-- `GrammarBuddyHelper.addSymbol` (lines 128-139): unconditionally runs
`langMap.update({symbol: []})`. -/
def addSymbol (g : Grammar) (symbol : String) : Grammar :=
  updateAssoc g symbol []

/-- `GrammarBuddyHelper.addExpression` (lines 141-158): append to the
existing list when the symbol is a key, otherwise `addSymbol` followed by
`langMap.update({symbol: [expression]})`. -/
def addExpression (g : Grammar) (symbol expression : String) : Grammar :=
  if (lookup g symbol).isSome then
    g.map (fun p => if p.1 == symbol then (p.1, p.2 ++ [expression]) else p)
  else
    updateAssoc (addSymbol g symbol) symbol [expression]

/-- The inner join loop of `GrammarBuddyHelper.saveMap` (lines 175-179):
each alternative `v` is emitted without a following delimiter when
`v == langMap[k][-1]` — a comparison with the LAST alternative by VALUE,
not by position. -/
def saveJoin (ed : String) : List String → String
  | [] => ""
  | a :: as =>
    (a :: as).foldl
      (fun acc v => if v == (a :: as).getLastD a then acc ++ v else acc ++ v ++ ed) ""

/-- The lines written by `GrammarBuddyHelper.saveMap` (lines 160-181), one
per key in mapping order; the file receives each line followed by a
newline. -/
def saveLines (g : Grammar) (sd ed : String) : List String :=
  g.map (fun p => p.1 ++ sd ++ saveJoin ed p.2)

-- Scratch sanity checks of the embedding on concrete inputs.
example : pySplitS "::=" "<x> ::= a | b" = ["<x> ", " a | b"] := by decide
example : pySplitS "|" " a | b" = [" a ", " b"] := by decide
example : pySplitS "::=" "<x>::=a::=b" = ["<x>", "a", "b"] := by decide
example : pySplitS " " "<x> c" = ["<x>", "c"] := by decide
example : pyStrip "a " = "a" := by decide
example : initGrammar "::=" "|" ["<x>::=a|b", "<y>::=<x> c"] =
    [("<x>", ["a", "b"]), ("<y>", ["<x> c"])] := by decide
example : initGrammar "::=" "|" ["<x> ::= a | b", "<y> ::= <x> c"] =
    [("<x> ", [" a ", " b"]), ("<y> ", [" <x> c"])] := by decide
example : generate (initGrammar "::=" "|" ["<x>::=a|b", "<y>::=<x> c"])
    (fun _ => 0) 3 0 "<y>" = Except.ok ("a c ", 2) := rfl
example : generate (initGrammar "::=" "|" ["<x>::=a|b", "<y>::=<x> c"])
    (fun _ => 1) 3 0 "<y>" = Except.ok ("b c ", 2) := rfl
example : saveLines [("<x>", ["a", "b", "a"])] "::=" "|" = ["<x>::=ab|a"] := by decide

/-! ## Helper lemmas -/

/-- Unfolding lemma for `generate` on a symbol that is a key. -/
theorem generate_found (g : Grammar) (oracle : Nat → Nat) (fuel pos : Nat) (symbol : String)
    (rule : List String) (h : lookup g symbol = some rule) (hne : rule.isEmpty = false) :
    generate g oracle (fuel + 1) pos symbol =
      genTokens g (generate g oracle fuel)
        (pySplitS " " (rule.getD (oracle pos % rule.length) "")) (pos + 1) "" := by
  simp [generate, h, hne]

/-- Step lemma for `genTokens` on a token that is a key. -/
theorem genTokens_key (g : Grammar) (gen : Nat → String → Except GenErr (String × Nat))
    (t : String) (ts : List String) (pos : Nat) (acc : String) (r : List String)
    (s : String) (pos2 : Nat) (h1 : lookup g t = some r) (h2 : gen pos t = Except.ok (s, pos2)) :
    genTokens g gen (t :: ts) pos acc = genTokens g gen ts pos2 (acc ++ pyStrip s ++ " ") := by
  simp [genTokens, h1, h2]

/-- Step lemma for `genTokens` on a token that is not a key (a terminal). -/
theorem genTokens_term (g : Grammar) (gen : Nat → String → Except GenErr (String × Nat))
    (t : String) (ts : List String) (pos : Nat) (acc : String) (h1 : lookup g t = none) :
    genTokens g gen (t :: ts) pos acc = genTokens g gen ts pos (acc ++ t ++ " ") := by
  simp [genTokens, h1]

/-! ## Claim theorems -/

/-- C1: the claim says `addSymbol` on an existing key leaves its
alternative list unaltered.  The code runs `langMap.update({symbol: []})`
unconditionally, so a key holding `["a"]` is reset to `[]`: evaluating the
code at the failing input shows the non-idempotent reset. -/
theorem addSymbol_resets_existing_key :
    addExpression [] "<x>" "a" = [("<x>", ["a"])] ∧
    addSymbol (addExpression [] "<x>" "a") "<x>" = [("<x>", [])] ∧
    ([("<x>", [])] : Grammar) ≠ [("<x>", ["a"])] :=
  ⟨rfl, rfl, by decide⟩

/-- C4: the claim says `saveMap` joins the alternatives with
`expressionDelimiter` omitted only after the last one.  The loop omits the
delimiter after every alternative that is EQUAL to the last one, so the
grammar `{"<x>": ["a","b","a"]}` (reached by parsing `"<x>::=a|b|a"`)
serializes to `"<x>::=ab|a"` instead of `"<x>::=a|b|a"`; the spec's own
duplicate-free example still works. -/
theorem saveMap_duplicate_of_last_drops_delimiter :
    initGrammar "::=" "|" ["<x>::=a|b|a"] = [("<x>", ["a", "b", "a"])] ∧
    saveLines [("<x>", ["a", "b", "a"])] "::=" "|" = ["<x>::=ab|a"] ∧
    ("<x>::=ab|a" : String) ≠ "<x>::=a|b|a" ∧
    saveLines [("<x>", ["a", "b"]), ("<empty>", [])] "::=" "|" =
      ["<x>::=a|b", "<empty>::="] :=
  ⟨by decide, by decide, by decide, by decide⟩

/-- C6: the claim says `generate` on a key with an empty alternative list
fails explicitly with an "empty alternative list" error.  The code instead
evaluates `random.randint(0, -1)`, which raises a bare `ValueError`
(modelled by `GenErr.valueError`): an ambiguous crash, not a reported
domain error. -/
theorem generate_empty_alternatives_crashes :
    generate (addSymbol [] "s") (fun _ => 0) 1 0 "s" =
      Except.error GenErr.valueError :=
  rfl

/-- C9: the claim says parse-then-serialize round-trips for every
well-formed rule-line list.  The `saveMap` join bug breaks it: the
well-formed list `["<x>::=a|b|a"]` parses to `{"<x>": ["a","b","a"]}`,
serializes to `"<x>::=ab|a"`, and re-parses to `{"<x>": ["ab","a"]}`,
which differs from the original mapping. -/
theorem roundTrip_fails_on_duplicate_of_last :
    initGrammar "::=" "|" ["<x>::=a|b|a"] = [("<x>", ["a", "b", "a"])] ∧
    saveLines (initGrammar "::=" "|" ["<x>::=a|b|a"]) "::=" "|" = ["<x>::=ab|a"] ∧
    initGrammar "::=" "|"
        (saveLines (initGrammar "::=" "|" ["<x>::=a|b|a"]) "::=" "|") =
      [("<x>", ["ab", "a"])] ∧
    initGrammar "::=" "|"
        (saveLines (initGrammar "::=" "|" ["<x>::=a|b|a"]) "::=" "|") ≠
      initGrammar "::=" "|" ["<x>::=a|b|a"] :=
  ⟨by decide, by decide, by decide, by decide⟩

/-- C7: `generate` on a string that is not a key returns the diagnostic
`"Symbol not found in grammar: " ++ symbol` as an ordinary value (and the
embedding is pure: the source's `generate` only reads `langMap`). -/
theorem generate_not_found (g : Grammar) (oracle : Nat → Nat) (fuel pos : Nat)
    (symbol : String) (h : lookup g symbol = none) :
    generate g oracle (fuel + 1) pos symbol =
      Except.ok ("Symbol not found in grammar: " ++ symbol, pos) := by
  simp [generate, h]

/-- C7 witness: the not-found diagnostic at a concrete grammar and symbol. -/
theorem generate_not_found_witness :
    generate [("<x>", ["a"])] (fun _ => 0) 1 0 "<q>" =
      Except.ok ("Symbol not found in grammar: " ++ "<q>", 0) :=
  generate_not_found [("<x>", ["a"])] (fun _ => 0) 0 0 "<q>" rfl

/-- C2 counterexample: with the spec's literal rule lines
`["<x> ::= a | b", "<y> ::= <x> c"]` the spaces around the delimiters are
kept, so the stored keys are `"<x> "` and `"<y> "`; `generate("<y>")` hits
the not-found branch and returns neither `"a c "` nor `"b c "`. -/
theorem generate_spaced_example_not_found :
    generate (initGrammar "::=" "|" ["<x> ::= a | b", "<y> ::= <x> c"])
        (fun _ => 0) 5 0 "<y>" =
      Except.ok ("Symbol not found in grammar: <y>", 0) ∧
    ("Symbol not found in grammar: <y>" : String) ≠ "a c " ∧
    ("Symbol not found in grammar: <y>" : String) ≠ "b c " :=
  ⟨rfl, by decide, by decide⟩

/-- C3: construction processes lines in order; at the first line missing
`symbolDelimiter` it reports `"Malformed rule: " ++ line` and aborts, so
the grammar holds exactly what the preceding (all well-formed) lines
produced and later lines are never processed. -/
theorem initGrammar_aborts_at_first_malformed (sd ed : String) (good : List String)
    (bad : String) (rest : List String) (m : Grammar)
    (hg : ∀ l ∈ good, hasOccurS sd l = true) (hb : hasOccurS sd bad = false) :
    initGrammarAux sd ed (good ++ bad :: rest) m =
      ((initGrammarAux sd ed good m).1, some ("Malformed rule: " ++ bad)) := by
  induction good generalizing m with
  | nil => simp [initGrammarAux, hb]
  | cons l ls ih =>
    have hl : hasOccurS sd l = true := hg l (by simp)
    simp only [List.cons_append, initGrammarAux, hl, if_true]
    exact ih _ (fun x hx => hg x (by simp [hx]))

/-- C3 witness: the spec's malformed example aborts at the second line,
keeping only the first line's entry. -/
theorem initGrammar_aborts_at_first_malformed_witness :
    initGrammarAux "::=" "|" ["<x> ::= a", "bad line no delimiter", "<y> ::= b"] [] =
      ((initGrammarAux "::=" "|" ["<x> ::= a"] []).1,
        some ("Malformed rule: " ++ "bad line no delimiter")) :=
  initGrammar_aborts_at_first_malformed "::=" "|" ["<x> ::= a"]
    "bad line no delimiter" ["<y> ::= b"] [] (by decide) (by decide)

-- The concrete grammar the spec's malformed example leaves behind: only
-- the first line's entry (with the unstripped spaces the code keeps), and
-- no entry whose key mentions "<y>".
example : initGrammar "::=" "|" ["<x> ::= a", "bad line no delimiter", "<y> ::= b"] =
    [("<x> ", [" a"])] := by decide

/-- C8: `contains term` is true iff `term` equals some key or equals one
full stored alternative string under some key (Python `term in i` on a
list is element equality, not substring search); the function reads the
map and has no side effects. -/
theorem contains_iff_key_or_alternative (g : Grammar) (term : String) :
    contains g term = true ↔
      (∃ p ∈ g, p.1 = term) ∨ ∃ p ∈ g, term ∈ p.2 := by
  unfold contains
  split
  next h =>
    simp only [true_iff]
    exact Or.inl (by simpa [List.any_eq_true] using h)
  next h =>
    simp only [List.any_eq_true, List.contains, List.elem_iff]
    constructor
    · rintro ⟨p, hp, hmem⟩
      exact Or.inr ⟨p, hp, hmem⟩
    · rintro (⟨⟨a, b⟩, hp, hkey⟩ | ⟨p, hp, hmem⟩)
      · have h' : ∀ x : List String, (term, x) ∉ g := by
          simpa [List.any_eq_true] using h
        dsimp only at hkey
        subst hkey
        exact absurd hp (h' b)
      · exact ⟨p, hp, hmem⟩

-- The spec's own example for C8: whole-alternative match, not substring.
example : contains [("<a>", ["<b> x", "y"])] "<a>" = true := by decide
example : contains [("<a>", ["<b> x", "y"])] "<b> x" = true := by decide
example : contains [("<a>", ["<b> x", "y"])] "<b>" = false := by decide

/-- Evaluation of `generate` on the literal two-rule grammar
`{"<x>": ["a","b"], "<y>": ["<x> c"]}`: whatever the oracle says, the
result is `"a c "` or `"b c "`. -/
theorem generate_xy_literal (oracle : Nat → Nat) (n : Nat) :
    generate [("<x>", ["a", "b"]), ("<y>", ["<x> c"])] oracle (n + 2) 0 "<y>" =
        Except.ok ("a c ", 2) ∨
      generate [("<x>", ["a", "b"]), ("<y>", ["<x> c"])] oracle (n + 2) 0 "<y>" =
        Except.ok ("b c ", 2) := by
  have hy : lookup [("<x>", ["a", "b"]), ("<y>", ["<x> c"])] "<y>" = some ["<x> c"] := rfl
  have hx : lookup [("<x>", ["a", "b"]), ("<y>", ["<x> c"])] "<x>" = some ["a", "b"] := rfl
  have hxgen :
      generate [("<x>", ["a", "b"]), ("<y>", ["<x> c"])] oracle (n + 1) 1 "<x>" =
          Except.ok ("a ", 2) ∨
        generate [("<x>", ["a", "b"]), ("<y>", ["<x> c"])] oracle (n + 1) 1 "<x>" =
          Except.ok ("b ", 2) := by
    rcases Nat.mod_two_eq_zero_or_one (oracle 1) with h2 | h2
    · left
      rw [generate_found _ oracle n 1 "<x>" ["a", "b"] hx rfl,
        show (["a", "b"] : List String).length = 2 from rfl, h2]
      rfl
    · right
      rw [generate_found _ oracle n 1 "<x>" ["a", "b"] hx rfl,
        show (["a", "b"] : List String).length = 2 from rfl, h2]
      rfl
  rcases hxgen with h2 | h2
  · left
    rw [generate_found _ oracle (n + 1) 0 "<y>" ["<x> c"] hy rfl,
      show (["<x> c"] : List String).length = 1 from rfl, Nat.mod_one]
    rw [show pySplitS " " (["<x> c"].getD 0 "") = ["<x>", "c"] from rfl]
    rw [genTokens_key _ _ "<x>" ["c"] 1 "" ["a", "b"] "a " 2 hx h2]
    rfl
  · right
    rw [generate_found _ oracle (n + 1) 0 "<y>" ["<x> c"] hy rfl,
      show (["<x> c"] : List String).length = 1 from rfl, Nat.mod_one]
    rw [show pySplitS " " (["<x> c"].getD 0 "") = ["<x>", "c"] from rfl]
    rw [genTokens_key _ _ "<x>" ["c"] 1 "" ["a", "b"] "b " 2 hx h2]
    rfl

/-- C2 (amended): with the rule lines written without spaces around the
delimiters — `["<x>::=a|b", "<y>::=<x> c"]` — every generation run for
`"<y>"` (any oracle, any sufficient recursion fuel) returns either
`"a c "` or `"b c "`.  (The spec's literal lines keep their spaces inside
keys and alternatives, so `"<y>"` is not even a key; see the
counterexample theorem.) -/
theorem generate_example_grammar_a_c_or_b_c (oracle : Nat → Nat) (fuel : Nat)
    (h : 2 ≤ fuel) :
    generate (initGrammar "::=" "|" ["<x>::=a|b", "<y>::=<x> c"]) oracle fuel 0 "<y>" =
        Except.ok ("a c ", 2) ∨
      generate (initGrammar "::=" "|" ["<x>::=a|b", "<y>::=<x> c"]) oracle fuel 0 "<y>" =
        Except.ok ("b c ", 2) := by
  obtain ⟨n, rfl⟩ : ∃ n, fuel = n + 2 := ⟨fuel - 2, by omega⟩
  have hG : initGrammar "::=" "|" ["<x>::=a|b", "<y>::=<x> c"] =
      [("<x>", ["a", "b"]), ("<y>", ["<x> c"])] := by decide
  rw [hG]
  exact generate_xy_literal oracle n

/-- C2 witness: a concrete run (all-zero oracle, fuel 2) of the amended
example, obtained from the amended theorem. -/
theorem generate_example_grammar_witness :
    generate (initGrammar "::=" "|" ["<x>::=a|b", "<y>::=<x> c"]) (fun _ => 0) 2 0 "<y>" =
        Except.ok ("a c ", 2) ∨
      generate (initGrammar "::=" "|" ["<x>::=a|b", "<y>::=<x> c"]) (fun _ => 0) 2 0 "<y>" =
        Except.ok ("b c ", 2) :=
  generate_example_grammar_a_c_or_b_c (fun _ => 0) 2 (by decide)

/-- `pySplitAux` never returns the empty list of parts. -/
theorem pySplitAux_ne_nil (sep : List Char) :
    ∀ (fuel : Nat) (s acc : List Char), pySplitAux sep fuel s acc ≠ [] := by
  intro fuel
  induction fuel with
  | zero => intro s acc; simp [pySplitAux]
  | succ n ih =>
    intro s acc
    match s with
    | [] => simp [pySplitAux]
    | c :: rest =>
      rw [pySplitAux]
      split
      · simp
      · exact ih rest (c :: acc)

/-- `pySplitS` never returns the empty list of parts: Python `str.split`
always yields at least one (possibly empty) piece. -/
theorem pySplitS_ne_nil (sep s : String) : pySplitS sep s ≠ [] := by
  unfold pySplitS pySplitL
  intro h
  exact pySplitAux_ne_nil sep.data s.data.length s.data [] (by simpa using h)

/-- `updateAssoc` preserves an entry-wise invariant it inserts. -/
theorem updateAssoc_forall (P : String × List String → Prop) (g : Grammar)
    (k : String) (v : List String) (hg : ∀ p ∈ g, P p) (hv : P (k, v)) :
    ∀ p ∈ updateAssoc g k v, P p := by
  intro p hp
  unfold updateAssoc at hp
  split at hp
  · obtain ⟨q, hq, hpq⟩ := List.mem_map.mp hp
    by_cases hk : q.1 == k
    · rw [if_pos hk] at hpq
      exact hpq ▸ hv
    · rw [if_neg hk] at hpq
      exact hpq ▸ hg q hq
  · rcases List.mem_append.mp hp with hmem | hmem
    · exact hg p hmem
    · simp only [List.mem_singleton] at hmem
      exact hmem ▸ hv

/-- Every value list in a grammar built by the constructor is non-empty,
whatever the starting map's values were. -/
theorem initGrammarAux_values_ne_nil (sd ed : String) (rules : List String) :
    ∀ m : Grammar, (∀ p ∈ m, p.2 ≠ []) →
      ∀ p ∈ (initGrammarAux sd ed rules m).1, p.2 ≠ [] := by
  induction rules with
  | nil => intro m hm; simpa [initGrammarAux] using hm
  | cons l ls ih =>
    intro m hm
    by_cases h : hasOccurS sd l
    · rw [initGrammarAux, if_pos h]
      exact ih _ (updateAssoc_forall _ _ _ _ hm (pySplitS_ne_nil _ _))
    · rw [initGrammarAux, if_neg h]
      exact hm

/-- If the recursive expander never reports `valueError`, neither does the
token loop (it only propagates the expander's errors). -/
theorem genTokens_ne_valueError (g : Grammar)
    (gen : Nat → String → Except GenErr (String × Nat))
    (hgen : ∀ pos s, gen pos s ≠ Except.error GenErr.valueError) :
    ∀ (ts : List String) (pos : Nat) (acc : String),
      genTokens g gen ts pos acc ≠ Except.error GenErr.valueError := by
  intro ts
  induction ts with
  | nil => intro pos acc; simp [genTokens]
  | cons t ts ih =>
    intro pos acc
    rw [genTokens]
    match h1 : lookup g t with
    | some r =>
      match h2 : gen pos t with
      | Except.error e =>
        have he : e ≠ GenErr.valueError := fun hc => hgen pos t (hc ▸ h2)
        simpa using he
      | Except.ok (s, pos2) => exact ih pos2 _
    | none => exact ih pos _

/-- On a grammar whose value lists are all non-empty, `generate` never
takes the empty-alternative branch, at any recursion depth. -/
theorem generate_ne_valueError (g : Grammar) (hg : ∀ p ∈ g, p.2 ≠ [])
    (oracle : Nat → Nat) :
    ∀ (fuel pos : Nat) (s : String),
      generate g oracle fuel pos s ≠ Except.error GenErr.valueError := by
  intro fuel
  induction fuel with
  | zero => intro pos s; simp [generate]
  | succ n ih =>
    intro pos s
    simp only [generate]
    cases h : lookup g s with
    | none => simp [h]
    | some rule =>
      have hrule : rule ≠ [] := by
        obtain ⟨p, hfind⟩ : ∃ p, g.find? (fun q => q.1 == s) = some p := by
          unfold lookup at h
          cases hf : g.find? (fun q => q.1 == s) with
          | none => rw [hf] at h; simp at h
          | some p => exact ⟨p, rfl⟩
        have hp2 : p.2 = rule := by
          unfold lookup at h
          rw [hfind] at h
          simpa using h
        exact hp2 ▸ hg p (List.mem_of_find?_eq_some hfind)
      simp only [h, List.isEmpty_iff, hrule, if_false]
      exact genTokens_ne_valueError g _ (fun p s => ih p s) _ _ _

/-- Membership in an updated map: an entry is the new one, or an old entry
whose key differs from the updated key. -/
theorem mem_updateAssoc (g : Grammar) (k : String) (v : List String) :
    ∀ p ∈ updateAssoc g k v, p = (k, v) ∨ (p ∈ g ∧ p.1 ≠ k) := by
  rintro ⟨a, b⟩ hp
  unfold updateAssoc at hp
  split at hp
  next hany =>
    obtain ⟨q, hq, hpq⟩ := List.mem_map.mp hp
    by_cases hk : q.1 == k
    · rw [if_pos hk] at hpq
      exact Or.inl hpq.symm
    · rw [if_neg hk] at hpq
      exact Or.inr ⟨hpq ▸ hq, by rw [← hpq]; simpa using hk⟩
  next hany =>
    rcases List.mem_append.mp hp with hmem | hmem
    · refine Or.inr ⟨hmem, fun hk => ?_⟩
      have hany2 : ∀ x : List String, (k, x) ∉ g := by
        simpa [List.any_eq_true] using hany
      dsimp only at hk
      subst hk
      exact hany2 b hmem
    · simp only [List.mem_singleton] at hmem
      exact Or.inl hmem

/-- C10: freshly constructed grammars have no empty alternative list
(splitting the text after the delimiter always yields at least one,
possibly empty-string, alternative), so the empty-alternative branch of
`generate` is unreachable on them; and `addExpression` preserves the
invariant, so an empty list can only arise through `addSymbol`. -/
theorem freshGrammar_no_empty_alternatives :
    (∀ (sd ed : String) (rules : List String),
      ∀ p ∈ initGrammar sd ed rules, p.2 ≠ []) ∧
    (∀ (sd ed : String) (rules : List String) (oracle : Nat → Nat) (fuel pos : Nat)
      (s : String),
      generate (initGrammar sd ed rules) oracle fuel pos s ≠
        Except.error GenErr.valueError) ∧
    (∀ (g : Grammar) (symbol expression : String), (∀ p ∈ g, p.2 ≠ []) →
      ∀ p ∈ addExpression g symbol expression, p.2 ≠ []) := by
  refine ⟨fun sd ed rules => initGrammarAux_values_ne_nil sd ed rules [] (by simp),
    fun sd ed rules oracle fuel pos s =>
      generate_ne_valueError _ (initGrammarAux_values_ne_nil sd ed rules [] (by simp))
        oracle fuel pos s,
    fun g symbol expression hg p hp => ?_⟩
  unfold addExpression at hp
  split at hp
  · obtain ⟨q, hq, hpq⟩ := List.mem_map.mp hp
    by_cases hk : q.1 == symbol
    · rw [if_pos hk] at hpq
      rw [← hpq]
      simp
    · rw [if_neg hk] at hpq
      exact hpq ▸ hg q hq
  · rcases mem_updateAssoc _ _ _ p hp with hpe | ⟨hmem, hne⟩
    · rw [hpe]
      simp
    · have hmem' : p ∈ updateAssoc g symbol [] := hmem
      rcases mem_updateAssoc _ _ _ p hmem' with hpe2 | ⟨hmem2, _⟩
      · exact absurd (by rw [hpe2]) hne
      · exact hg p hmem2

/-- C10 witness: the invariant and the unreachability instantiated on the
one-rule grammar `["<x>::=a"]` and on a concrete `addExpression` call. -/
theorem freshGrammar_no_empty_alternatives_witness :
    (("<x>", ["a"]).2 ≠ [] ∧
      generate (initGrammar "::=" "|" ["<x>::=a"]) (fun _ => 0) 1 0 "<x>" ≠
        Except.error GenErr.valueError) ∧
    (("<x>", ["a", "z"]).2 ≠ []) :=
  ⟨⟨freshGrammar_no_empty_alternatives.1 "::=" "|" ["<x>::=a"] ("<x>", ["a"]) (by decide),
    freshGrammar_no_empty_alternatives.2.1 "::=" "|" ["<x>::=a"] (fun _ => 0) 1 0 "<x>"⟩,
    freshGrammar_no_empty_alternatives.2.2 [("<x>", ["a"])] "<x>" "z" (by decide)
      ("<x>", ["a", "z"]) (by decide)⟩

/-- The default symbol delimiter `"::="` as a character list. -/
def sdChars : List Char := [':', ':', '=']

/-- Once the fuel is at least the length of the string being split, its
exact value does not matter (for a nonempty separator). -/
theorem pySplitAux_fuel (sep : List Char) (hsep : sep ≠ []) :
    ∀ (f1 f2 : Nat) (s acc : List Char), s.length ≤ f1 → s.length ≤ f2 →
      pySplitAux sep f1 s acc = pySplitAux sep f2 s acc := by
  intro f1
  induction f1 with
  | zero =>
    intro f2 s acc h1 h2
    have hs : s = [] := List.length_eq_zero.mp (Nat.le_zero.mp h1)
    subst hs
    cases f2 <;> simp [pySplitAux]
  | succ n ih =>
    intro f2 s acc h1 h2
    match s with
    | [] => cases f2 <;> simp [pySplitAux]
    | c :: rest =>
      obtain ⟨m, rfl⟩ : ∃ m, f2 = m + 1 := by
        cases f2 with
        | zero => simp at h2
        | succ m => exact ⟨m, rfl⟩
      have hpos : 0 < sep.length := List.length_pos.mpr hsep
      have hd : (List.drop sep.length (c :: rest)).length = rest.length + 1 - sep.length := by
        rw [List.length_drop]
        simp
      simp only [List.length_cons] at h1 h2
      simp only [pySplitAux]
      by_cases hpre : sep.isPrefixOf (c :: rest)
      · rw [if_pos hpre, if_pos hpre]
        refine congrArg (List.cons acc.reverse) (ih m _ [] ?_ ?_)
        · rw [hd]; omega
        · rw [hd]; omega
      · rw [if_neg hpre, if_neg hpre]
        exact ih m rest (c :: acc) (by omega) (by omega)

/-- Splitting a string that contains no occurrence of the separator
yields a single part. -/
theorem pySplitAux_no_occur (sep : List Char) :
    ∀ (f : Nat) (s acc : List Char), hasOccur sep s = false →
      pySplitAux sep f s acc = [acc.reverse ++ s] := by
  intro f
  induction f with
  | zero => intro s acc _; rfl
  | succ n ih =>
    intro s acc h
    match s with
    | [] => simp [pySplitAux]
    | c :: rest =>
      rw [hasOccur, Bool.or_eq_false_iff] at h
      obtain ⟨h1, h2⟩ := h
      simp only [pySplitAux]
      rw [if_neg (by simp [h1])]
      rw [ih rest (c :: acc) h2]
      simp

/-- Python split on a separator-free string returns just that string. -/
theorem pySplitL_no_occur (sep s : List Char) (h : hasOccur sep s = false) :
    pySplitL sep s = [s] := by
  unfold pySplitL
  rw [pySplitAux_no_occur sep s.length s [] h]
  simp

/-- A list is a prefix (in the `Bool` sense) of itself followed by
anything. -/
theorem isPrefixOf_self_append (l t : List Char) : l.isPrefixOf (l ++ t) = true := by
  induction l with
  | nil => simp [List.isPrefixOf]
  | cons c cs ih => simp [List.isPrefixOf, ih]

/-- A string of the form `x ++ sep ++ y` contains `sep`. -/
theorem hasOccur_mid (sep x y : List Char) : hasOccur sep (x ++ sep ++ y) = true := by
  induction x with
  | nil =>
    simp only [List.nil_append]
    cases hsy : sep ++ y with
    | nil =>
      have hs : sep = [] := by
        cases sep
        · rfl
        · simp at hsy
      rw [hs]
      rfl
    | cons c rest =>
      rw [hasOccur, ← hsy, isPrefixOf_self_append]
      rfl
  | cons c x2 ih =>
    rw [List.cons_append, List.cons_append, hasOccur, ih]
    simp

/-- For the default delimiter `"::="`, a scan position strictly inside a
key that itself contains no `"::="` can never start a match of `"::="`,
even one that would span into the delimiter that follows the key (the
delimiter's first two characters are `':'`, never `'='`). -/
theorem sd_no_early_match (c : Char) (k r : List Char)
    (hk : hasOccur sdChars (c :: k) = false) :
    sdChars.isPrefixOf (c :: (k ++ sdChars ++ r)) = false := by
  match k with
  | [] =>
    simp [sdChars, List.isPrefixOf, show ('=' == ':') = false from rfl]
  | [d] =>
    simp [sdChars, List.isPrefixOf, show ('=' == ':') = false from rfl]
  | d :: e :: k2 =>
    have hpre : sdChars.isPrefixOf (c :: d :: e :: k2) = false := by
      rw [hasOccur, Bool.or_eq_false_iff] at hk
      exact hk.1
    simp only [sdChars, List.isPrefixOf, List.cons_append, List.nil_append,
      Bool.and_true] at hpre ⊢
    exact hpre

/-- Splitting `k ++ "::=" ++ r` on `"::="`, where the key `k` is free of
`"::="`: the first part is exactly `k` and the rest is the split of `r`. -/
theorem pySplitAux_sd_mid :
    ∀ k : List Char, hasOccur sdChars k = false →
    ∀ (r acc : List Char) (f : Nat), (k ++ sdChars ++ r).length ≤ f →
      pySplitAux sdChars f (k ++ sdChars ++ r) acc =
        (acc.reverse ++ k) :: pySplitAux sdChars r.length r [] := by
  intro k
  induction k with
  | nil =>
    intro _ r acc f hf
    simp only [List.nil_append] at hf ⊢
    obtain ⟨m, rfl⟩ : ∃ m, f = m + 1 := by
      cases f with
      | zero => simp [sdChars] at hf
      | succ m => exact ⟨m, rfl⟩
    rw [show sdChars ++ r = ':' :: (':' :: '=' :: r) by simp [sdChars]]
    simp only [pySplitAux]
    rw [if_pos (show sdChars.isPrefixOf (':' :: ':' :: '=' :: r) = true by
      rw [show (':' :: ':' :: '=' :: r : List Char) = sdChars ++ r by simp [sdChars]]
      exact isPrefixOf_self_append sdChars r)]
    rw [show List.drop sdChars.length (':' :: ':' :: '=' :: r) = r by simp [sdChars]]
    have hr : r.length ≤ m := by
      simp only [show (sdChars ++ r).length = r.length + 3 by simp [sdChars]] at hf
      omega
    rw [pySplitAux_fuel sdChars (by simp [sdChars]) m r.length r [] hr (le_refl _)]
    simp
  | cons c k2 ih =>
    intro hk r acc f hf
    obtain ⟨m, rfl⟩ : ∃ m, f = m + 1 := by
      cases f with
      | zero => simp at hf
      | succ m => exact ⟨m, rfl⟩
    have hk2 : hasOccur sdChars k2 = false := by
      rw [hasOccur, Bool.or_eq_false_iff] at hk
      exact hk.2
    have hnp : sdChars.isPrefixOf (c :: (k2 ++ sdChars ++ r)) = false :=
      sd_no_early_match c k2 r hk
    simp only [List.cons_append]
    simp only [pySplitAux]
    have hnp2 : ¬ sdChars <+: c :: (k2 ++ (sdChars ++ r)) := by
      rw [List.append_assoc] at hnp
      intro hcon
      rw [← List.isPrefixOf_iff_prefix] at hcon
      rw [hnp] at hcon
      exact Bool.false_ne_true hcon
    rw [if_neg (by simpa using hnp2)]
    rw [ih hk2 r (c :: acc) m
      (by simp only [List.cons_append, List.length_cons] at hf ⊢; omega)]
    simp

/-- String-level version of `pySplitAux_sd_mid`. -/
theorem pySplitL_sd_mid (k r : List Char) (hk : hasOccur sdChars k = false) :
    pySplitL sdChars (k ++ sdChars ++ r) = k :: pySplitL sdChars r := by
  unfold pySplitL
  rw [pySplitAux_sd_mid k hk r [] _ (le_refl _)]
  simp

/-- C5 counterexample: for the line `"<x>::=a::=b"`, which contains the
symbol delimiter twice, the code stores `{"<x>": ["a"]}` — the text after
the second occurrence is discarded, not kept as part of `rest` as the
claim's split-at-first-occurrence reading requires. -/
theorem initGrammar_discards_after_second_delimiter :
    initGrammar "::=" "|" ["<x>::=a::=b"] = [("<x>", ["a"])] ∧
    initGrammar "::=" "|" ["<x>::=a::=b"] ≠ [("<x>", ["a::=b"])] :=
  ⟨by decide, by decide⟩

/-- C5 (amended): construction splits a valid line on ALL occurrences of
`symbolDelimiter` and keeps parts 0 and 1: the symbol is the text before
the first occurrence, and `rest` is the segment between the first
occurrence and the next occurrence (or the end of the line), so for a
line with one occurrence this is split-at-first, while for a line with
two or more occurrences everything from the second occurrence on is
discarded.  `rest` is split entirely on `expressionDelimiter`. -/
theorem initGrammar_split_at_delimiters :
    (∀ k m : List Char, hasOccur sdChars k = false → hasOccur sdChars m = false →
      initGrammar "::=" "|" [String.mk (k ++ sdChars ++ m)] =
        [(String.mk k, pySplitS "|" (String.mk m))]) ∧
    (∀ k m t : List Char, hasOccur sdChars k = false → hasOccur sdChars m = false →
      initGrammar "::=" "|" [String.mk (k ++ sdChars ++ m ++ sdChars ++ t)] =
        [(String.mk k, pySplitS "|" (String.mk m))]) := by
  constructor
  · intro k m hk hm
    have hin : hasOccurS "::=" (String.mk (k ++ sdChars ++ m)) = true :=
      hasOccur_mid sdChars k m
    have hsplit : pySplitS "::=" (String.mk (k ++ sdChars ++ m)) =
        [String.mk k, String.mk m] := by
      show (pySplitL sdChars (k ++ sdChars ++ m)).map String.mk = _
      rw [pySplitL_sd_mid k m hk, pySplitL_no_occur sdChars m hm]
      rfl
    unfold initGrammar
    simp only [initGrammarAux, hin, if_true, hsplit]
    simp [updateAssoc]
  · intro k m t hk hm
    have hshape : k ++ sdChars ++ m ++ sdChars ++ t =
        k ++ sdChars ++ (m ++ sdChars ++ t) := by
      simp [List.append_assoc]
    have hin : hasOccurS "::=" (String.mk (k ++ sdChars ++ m ++ sdChars ++ t)) = true := by
      show hasOccur sdChars (k ++ sdChars ++ m ++ sdChars ++ t) = true
      rw [hshape]
      exact hasOccur_mid sdChars k (m ++ sdChars ++ t)
    have hsplit : pySplitS "::=" (String.mk (k ++ sdChars ++ m ++ sdChars ++ t)) =
        String.mk k :: String.mk m :: (pySplitL sdChars t).map String.mk := by
      show (pySplitL sdChars (k ++ sdChars ++ m ++ sdChars ++ t)).map String.mk = _
      rw [hshape, pySplitL_sd_mid k (m ++ sdChars ++ t) hk, pySplitL_sd_mid m t hm]
      rfl
    unfold initGrammar
    simp only [initGrammarAux, hin, if_true, hsplit]
    simp [updateAssoc]

/-- C5 witness: the amended split semantics evaluated on the concrete
lines `"<x>::=a"` (one occurrence) and `"<x>::=a::=b"` (two occurrences). -/
theorem initGrammar_split_at_delimiters_witness :
    initGrammar "::=" "|" [String.mk (['<', 'x', '>'] ++ sdChars ++ ['a'])] =
        [(String.mk ['<', 'x', '>'], pySplitS "|" (String.mk ['a']))] ∧
      initGrammar "::=" "|"
          [String.mk (['<', 'x', '>'] ++ sdChars ++ ['a'] ++ sdChars ++ ['b'])] =
        [(String.mk ['<', 'x', '>'], pySplitS "|" (String.mk ['a']))] :=
  ⟨initGrammar_split_at_delimiters.1 ['<', 'x', '>'] ['a'] (by decide) (by decide),
    initGrammar_split_at_delimiters.2 ['<', 'x', '>'] ['a'] ['b'] (by decide) (by decide)⟩

end GBH
